import Mathlib

/-
Verification development for the mesh-indexing / baked-model pipeline.

The byte-level container format (writer in cw2-bake/main.cpp, loader in
cw2/baked_model.cpp) is modelled over List Nat byte streams; a 32-bit value
is serialized little-endian, matching fwrite/fread of uint32 on the target
platform. Float fields are carried as their 32-bit patterns (a Nat below
2 to the 32), since the writer and the loader move them byte for byte.

The merge engine (cw2-bake/index_mesh.cpp) is modelled with exact rational
arithmetic in place of IEEE float arithmetic; machine integer casts are kept
explicit (mod 2 pow 32 and mod 2 pow 64).
-/

--++ Section 1: bytes, 32-bit encoding, checked reads ++--

/-- Little-endian 4-byte encoding of a 32-bit value; values at or above
2 to the 32 wrap, matching the uint32 casts in the writer. -/
def encodeU32 (n : Nat) : List Nat :=
  [n % 256, n / 256 % 256, n / 256 ^ 2 % 256, n / 256 ^ 3 % 256]

/-- Little-endian decoding of a byte list (first byte least significant). -/
def leNat : List Nat → Nat
  | [] => 0
  | b :: bs => b + 256 * leNat bs

/-- Model of checked_read_ of cw2/baked_model.cpp: take the requested number
of bytes from the front of the stream; a short read throws. -/
def checkedRead (n : Nat) (bs : List Nat) : Except String (List Nat × List Nat) :=
  if n ≤ bs.length then .ok (bs.take n, bs.drop n)
  else .error "checked_read_: short read"

/-- Model of read_uint32_. -/
def readUint32 (bs : List Nat) : Except String (Nat × List Nat) :=
  match checkedRead 4 bs with
  | .error e => .error e
  | .ok (w, rest) => .ok (leNat w, rest)

/-- kMaxString of cw2/baked_model.cpp. -/
def kMaxString : Nat := 32 * 1024

/-- Model of read_string_: a declared length of kMaxString or more is an
error; otherwise that many bytes are read. -/
def readString (bs : List Nat) : Except String (List Nat × List Nat) :=
  match readUint32 bs with
  | .error e => .error e
  | .ok (len, r1) =>
    if kMaxString ≤ len then .error "read_string_: unexpectedly long string"
    else
      match checkedRead len r1 with
      | .error e => .error e
      | .ok (s, r2) => .ok (s, r2)

/-- Is an Except result an error? -/
def isErr {α : Type} : Except String α → Bool
  | .error _ => true
  | .ok _ => false

--++ Section 2: the loader (cw2/baked_model.cpp) ++--

/-- The 16 bytes of kFileMagic ("\0\0COMP5822Mmesh" and the terminator). -/
def kFileMagic : List Nat := [0, 0, 67, 79, 77, 80, 53, 56, 50, 50, 77, 109, 101, 115, 104, 0]

/-- The 16 bytes of kFileVariant ("scsmbil-tan", zero padded). -/
def kFileVariant : List Nat := [115, 99, 115, 109, 98, 105, 108, 45, 116, 97, 110, 0, 0, 0, 0, 0]

structure BakedTextureInfo where
  path : List Nat
  channels : Nat
deriving DecidableEq

structure BakedMaterialInfo where
  baseColorTextureId : Nat
  roughnessTextureId : Nat
  metalnessTextureId : Nat
  alphaMaskTextureId : Nat
  normalMapTextureId : Nat
deriving DecidableEq

structure BakedMeshData where
  materialId : Nat
  positions : List (Nat × Nat × Nat)
  normals : List (Nat × Nat × Nat)
  texcoords : List (Nat × Nat)
  tangents : List (Nat × Nat × Nat × Nat)
  indices : List Nat
deriving DecidableEq

structure BakedModel where
  textures : List BakedTextureInfo
  materials : List BakedMaterialInfo
  meshes : List BakedMeshData
deriving DecidableEq

/-- Model of the base-path computation of load_baked_model_: everything up to
and including the last slash (byte 47) of the input name, via strrchr; empty
when there is no slash. -/
def baseDir : List Nat → List Nat
  | [] => []
  | c :: rest =>
    if rest.contains 47 then c :: baseDir rest
    else if c = 47 then [47]
    else []

/-- Read one texture record: a length-prefixed path (the loader prepends the
directory of the container file) and a channel byte. -/
def readTexture (dir : List Nat) (bs : List Nat) : Except String (BakedTextureInfo × List Nat) :=
  match readString bs with
  | .error e => .error e
  | .ok (s, r1) =>
    match checkedRead 1 r1 with
    | .error e => .error e
    | .ok (cb, r2) => .ok (⟨dir ++ s, leNat cb⟩, r2)

def readTextures (dir : List Nat) : Nat → List Nat → Except String (List BakedTextureInfo × List Nat)
  | 0, bs => .ok ([], bs)
  | n + 1, bs =>
    match readTexture dir bs with
    | .error e => .error e
    | .ok (t, r1) =>
      match readTextures dir n r1 with
      | .error e => .error e
      | .ok (ts, r2) => .ok (t :: ts, r2)

/-- Read one material record: five uint32 texture indices. -/
def readMaterial (bs : List Nat) : Except String (BakedMaterialInfo × List Nat) :=
  match readUint32 bs with
  | .error e => .error e
  | .ok (a, r1) =>
    match readUint32 r1 with
    | .error e => .error e
    | .ok (b, r2) =>
      match readUint32 r2 with
      | .error e => .error e
      | .ok (c, r3) =>
        match readUint32 r3 with
        | .error e => .error e
        | .ok (d, r4) =>
          match readUint32 r4 with
          | .error e => .error e
          | .ok (e5, r5) => .ok (⟨a, b, c, d, e5⟩, r5)

def readMaterials : Nat → List Nat → Except String (List BakedMaterialInfo × List Nat)
  | 0, bs => .ok ([], bs)
  | n + 1, bs =>
    match readMaterial bs with
    | .error e => .error e
    | .ok (m, r1) =>
      match readMaterials n r1 with
      | .error e => .error e
      | .ok (ms, r2) => .ok (m :: ms, r2)

def readVec3 (bs : List Nat) : Except String ((Nat × Nat × Nat) × List Nat) :=
  match readUint32 bs with
  | .error e => .error e
  | .ok (x, r1) =>
    match readUint32 r1 with
    | .error e => .error e
    | .ok (y, r2) =>
      match readUint32 r2 with
      | .error e => .error e
      | .ok (z, r3) => .ok ((x, y, z), r3)

def readVec2 (bs : List Nat) : Except String ((Nat × Nat) × List Nat) :=
  match readUint32 bs with
  | .error e => .error e
  | .ok (x, r1) =>
    match readUint32 r1 with
    | .error e => .error e
    | .ok (y, r2) => .ok ((x, y), r2)

def readVec4 (bs : List Nat) : Except String ((Nat × Nat × Nat × Nat) × List Nat) :=
  match readUint32 bs with
  | .error e => .error e
  | .ok (x, r1) =>
    match readVec3 r1 with
    | .error e => .error e
    | .ok (v, r2) => .ok ((x, v.1, v.2.1, v.2.2), r2)

def readVec3List : Nat → List Nat → Except String (List (Nat × Nat × Nat) × List Nat)
  | 0, bs => .ok ([], bs)
  | n + 1, bs =>
    match readVec3 bs with
    | .error e => .error e
    | .ok (v, r1) =>
      match readVec3List n r1 with
      | .error e => .error e
      | .ok (vs, r2) => .ok (v :: vs, r2)

def readVec2List : Nat → List Nat → Except String (List (Nat × Nat) × List Nat)
  | 0, bs => .ok ([], bs)
  | n + 1, bs =>
    match readVec2 bs with
    | .error e => .error e
    | .ok (v, r1) =>
      match readVec2List n r1 with
      | .error e => .error e
      | .ok (vs, r2) => .ok (v :: vs, r2)

def readVec4List : Nat → List Nat → Except String (List (Nat × Nat × Nat × Nat) × List Nat)
  | 0, bs => .ok ([], bs)
  | n + 1, bs =>
    match readVec4 bs with
    | .error e => .error e
    | .ok (v, r1) =>
      match readVec4List n r1 with
      | .error e => .error e
      | .ok (vs, r2) => .ok (v :: vs, r2)

def readU32List : Nat → List Nat → Except String (List Nat × List Nat)
  | 0, bs => .ok ([], bs)
  | n + 1, bs =>
    match readUint32 bs with
    | .error e => .error e
    | .ok (v, r1) =>
      match readU32List n r1 with
      | .error e => .error e
      | .ok (vs, r2) => .ok (v :: vs, r2)

/-- Read one mesh record: material id, vertex count V, index count I, then V
positions, V normals, V texcoords, V tangents and I indices. The C++ loader
reads each attribute block with one bulk checked_read_; element-wise reads of
the same bytes fail exactly when the bulk read does. -/
def readMesh (bs : List Nat) : Except String (BakedMeshData × List Nat) :=
  match readUint32 bs with
  | .error e => .error e
  | .ok (mid, r1) =>
    match readUint32 r1 with
    | .error e => .error e
    | .ok (v, r2) =>
      match readUint32 r2 with
      | .error e => .error e
      | .ok (i, r3) =>
        match readVec3List v r3 with
        | .error e => .error e
        | .ok (ps, r4) =>
          match readVec3List v r4 with
          | .error e => .error e
          | .ok (ns, r5) =>
            match readVec2List v r5 with
            | .error e => .error e
            | .ok (ts, r6) =>
              match readVec4List v r6 with
              | .error e => .error e
              | .ok (tg, r7) =>
                match readU32List i r7 with
                | .error e => .error e
                | .ok (ix, r8) => .ok (⟨mid, ps, ns, ts, tg, ix⟩, r8)

def readMeshes : Nat → List Nat → Except String (List BakedMeshData × List Nat)
  | 0, bs => .ok ([], bs)
  | n + 1, bs =>
    match readMesh bs with
    | .error e => .error e
    | .ok (m, r1) =>
      match readMeshes n r1 with
      | .error e => .error e
      | .ok (ms, r2) => .ok (m :: ms, r2)

/-- Model of load_baked_model_ of cw2/baked_model.cpp. The final check in the
C++ code reads one more byte and only prints a note when it is present, so
trailing bytes leave the result untouched. -/
def load_baked_model_ (name : List Nat) (bs : List Nat) : Except String BakedModel :=
  let dir := baseDir name
  match checkedRead 16 bs with
  | .error e => .error e
  | .ok (magic, r1) =>
    if magic = kFileMagic then
      match checkedRead 16 r1 with
      | .error e => .error e
      | .ok (variant, r2) =>
        if variant = kFileVariant then
          match readUint32 r2 with
          | .error e => .error e
          | .ok (tc, r3) =>
            match readTextures dir tc r3 with
            | .error e => .error e
            | .ok (texs, r4) =>
              match readUint32 r4 with
              | .error e => .error e
              | .ok (mc, r5) =>
                match readMaterials mc r5 with
                | .error e => .error e
                | .ok (mats, r6) =>
                  match readUint32 r6 with
                  | .error e => .error e
                  | .ok (hc, r7) =>
                    match readMeshes hc r7 with
                    | .error e => .error e
                    | .ok (meshes, _) => .ok ⟨texs, mats, meshes⟩
        else .error "load_baked_model_: unexpected file variant"
    else .error "load_baked_model_: invalid file signature"

--++ Section 3: the writer (cw2-bake/main.cpp, write_model_data_) ++--

/-- Writer-side texture entry, as stored in the unique-texture table, ordered
by uniqueId: the rewritten path (no interior or trailing NUL bytes; strlen
measures it) and the channel count. -/
structure TextureInfo where
  newPath : List Nat
  channels : Nat
deriving DecidableEq

/-- Writer-side material: for each of the five slots, the unique texture id
written by write_tex_, or none when the source path is empty (write_tex_ then
writes the 0xFFFFFFFF sentinel). -/
structure MaterialRefs where
  baseColor : Option Nat
  roughness : Option Nat
  metalness : Option Nat
  alphaMask : Option Nat
  normalMap : Option Nat
deriving DecidableEq

/-- Writer-side mesh: the material index and the indexed-mesh arrays, float
components carried as 32-bit patterns. -/
structure OutMesh where
  materialIndex : Nat
  vert : List (Nat × Nat × Nat)
  norm : List (Nat × Nat × Nat)
  text : List (Nat × Nat)
  tangent : List (Nat × Nat × Nat × Nat)
  indices : List Nat
deriving DecidableEq

/-- The data write_model_data_ consumes: ordered unique textures, materials,
meshes. -/
structure BakeInput where
  textures : List TextureInfo
  materials : List MaterialRefs
  meshes : List OutMesh
deriving DecidableEq

/-- Model of write_string_: a uint32 length (strlen plus one, counting the
terminator) followed by that many bytes, terminator included. -/
def write_string_ (s : List Nat) : List Nat := encodeU32 (s.length + 1) ++ s ++ [0]

/-- Model of write_tex_: the unique id of the texture, or 0xFFFFFFFF when the
material has no such texture. -/
def write_tex_ : Option Nat → List Nat
  | none => encodeU32 (2 ^ 32 - 1)
  | some id => encodeU32 id

def encodeVec3 (v : Nat × Nat × Nat) : List Nat := encodeU32 v.1 ++ encodeU32 v.2.1 ++ encodeU32 v.2.2

def encodeVec2 (v : Nat × Nat) : List Nat := encodeU32 v.1 ++ encodeU32 v.2

def encodeVec4 (v : Nat × Nat × Nat × Nat) : List Nat :=
  encodeU32 v.1 ++ encodeU32 v.2.1 ++ encodeU32 v.2.2.1 ++ encodeU32 v.2.2.2

def writeTexture (t : TextureInfo) : List Nat := write_string_ t.newPath ++ [t.channels % 256]

def writeMaterial (m : MaterialRefs) : List Nat :=
  write_tex_ m.baseColor ++ write_tex_ m.roughness ++ write_tex_ m.metalness ++
    write_tex_ m.alphaMask ++ write_tex_ m.normalMap

def writeMesh (m : OutMesh) : List Nat :=
  encodeU32 m.materialIndex ++ encodeU32 m.vert.length ++ encodeU32 m.indices.length ++
    (m.vert.map encodeVec3).flatten ++ (m.norm.map encodeVec3).flatten ++
    (m.text.map encodeVec2).flatten ++ (m.tangent.map encodeVec4).flatten ++
    (m.indices.map encodeU32).flatten

/-- Model of write_model_data_: magic, variant, texture table, material table,
mesh table. The C++ writer emits vertexCount elements of each attribute array;
well-formed inputs (WFMesh) have equal attribute lengths, under which writing
the whole arrays is the same byte stream. -/
def write_model_data_ (m : BakeInput) : List Nat :=
  kFileMagic ++ kFileVariant ++
    encodeU32 m.textures.length ++ (m.textures.map writeTexture).flatten ++
    encodeU32 m.materials.length ++ (m.materials.map writeMaterial).flatten ++
    encodeU32 m.meshes.length ++ (m.meshes.map writeMesh).flatten

--++ Section 4: well-formedness of writer input, expected loader output ++--

abbrev WFTexture (t : TextureInfo) : Prop :=
  t.newPath.length + 1 < kMaxString ∧ (∀ b ∈ t.newPath, 0 < b ∧ b < 256) ∧ t.channels < 256

abbrev WFRef (o : Option Nat) : Prop := o.getD 0 < 2 ^ 32

abbrev WFMaterial (m : MaterialRefs) : Prop :=
  WFRef m.baseColor ∧ WFRef m.roughness ∧ WFRef m.metalness ∧ WFRef m.alphaMask ∧ WFRef m.normalMap

abbrev WFVec3 (v : Nat × Nat × Nat) : Prop := v.1 < 2 ^ 32 ∧ v.2.1 < 2 ^ 32 ∧ v.2.2 < 2 ^ 32

abbrev WFVec2 (v : Nat × Nat) : Prop := v.1 < 2 ^ 32 ∧ v.2 < 2 ^ 32

abbrev WFVec4 (v : Nat × Nat × Nat × Nat) : Prop :=
  v.1 < 2 ^ 32 ∧ v.2.1 < 2 ^ 32 ∧ v.2.2.1 < 2 ^ 32 ∧ v.2.2.2 < 2 ^ 32

abbrev WFMesh (m : OutMesh) : Prop :=
  m.materialIndex < 2 ^ 32 ∧ m.vert.length < 2 ^ 32 ∧ m.indices.length < 2 ^ 32 ∧
    m.norm.length = m.vert.length ∧ m.text.length = m.vert.length ∧
    m.tangent.length = m.vert.length ∧
    (∀ v ∈ m.vert, WFVec3 v) ∧ (∀ v ∈ m.norm, WFVec3 v) ∧ (∀ v ∈ m.text, WFVec2 v) ∧
    (∀ v ∈ m.tangent, WFVec4 v) ∧ (∀ ix ∈ m.indices, ix < 2 ^ 32)

abbrev WFBakeInput (m : BakeInput) : Prop :=
  m.textures.length < 2 ^ 32 ∧ m.materials.length < 2 ^ 32 ∧ m.meshes.length < 2 ^ 32 ∧
    (∀ t ∈ m.textures, WFTexture t) ∧ (∀ mt ∈ m.materials, WFMaterial mt) ∧
    (∀ me ∈ m.meshes, WFMesh me)

/-- What the loader actually produces for one written texture: the directory
of the container file, then the stored bytes, which include the string
terminator, because read_string_ keeps all length bytes. -/
def loadedTexture (dir : List Nat) (t : TextureInfo) : BakedTextureInfo :=
  ⟨dir ++ t.newPath ++ [0], t.channels⟩

/-- The written uint32 of a texture reference. -/
def refId : Option Nat → Nat
  | none => 2 ^ 32 - 1
  | some id => id

def loadedMaterial (m : MaterialRefs) : BakedMaterialInfo :=
  ⟨refId m.baseColor, refId m.roughness, refId m.metalness, refId m.alphaMask, refId m.normalMap⟩

def loadedMesh (m : OutMesh) : BakedMeshData :=
  ⟨m.materialIndex, m.vert, m.norm, m.text, m.tangent, m.indices⟩

/-- The model the loader reconstructs from the writer output. -/
def bakedOf (name : List Nat) (m : BakeInput) : BakedModel :=
  ⟨m.textures.map (loadedTexture (baseDir name)), m.materials.map loadedMaterial,
    m.meshes.map loadedMesh⟩

/-- The round-trip result exactly as the specification words it: texture path
strings byte-identical modulo the directory rewriting, with no other change.
Used only to compare the claim against the loader. -/
def bakedOfSpec (name : List Nat) (m : BakeInput) : BakedModel :=
  ⟨m.textures.map (fun t => ⟨baseDir name ++ t.newPath, t.channels⟩),
    m.materials.map loadedMaterial, m.meshes.map loadedMesh⟩

--++ Section 5: the merge engine (cw2-bake/index_mesh.cpp) ++--

abbrev Vec3q := ℚ × ℚ × ℚ

abbrev Vec2q := ℚ × ℚ

/-- TriangleSoup of index_mesh.hpp: parallel per-corner attribute arrays. -/
structure TriangleSoup where
  vert : List Vec3q
  norm : List Vec3q
  text : List Vec2q

/-- Vector indexing, in-bounds in every use the algorithm makes. -/
def vertAt (s : TriangleSoup) (i : Nat) : Vec3q := s.vert.getD i (0, 0, 0)

def normAt (s : TriangleSoup) (i : Nat) : Vec3q := s.norm.getD i (0, 0, 0)

def textAt (s : TriangleSoup) (i : Nat) : Vec2q := s.text.getD i (0, 0)

structure DiscretizedPosition where
  x : Int
  y : Int
  z : Int

/-- Discretizer_ of index_mesh.cpp: the padded bounding-box minimum and the
scale factor / maxSide. The uint32 cast of the factor is the identity, since
the factor is capped at kSparseGridMaxSize. -/
structure Discretizer where
  min : Vec3q
  scale : ℚ

def Discretizer.ofParams (factor : Nat) (mn : Vec3q) (side : ℚ) : Discretizer :=
  ⟨mn, (factor : ℚ) / side⟩

/-- The cast chain of Discretizer_::discretize: a float cast to uint32
truncates toward zero (the value is nonnegative for positions inside the
padded box, the documented precondition), and the uint32 is then stored in
the int32 field, wrapping mod 2 pow 32. -/
def toInt32Cast (q : ℚ) : Int :=
  let u : Nat := (Int.toNat ⌊q⌋) % 2 ^ 32
  if u < 2 ^ 31 then (u : Int) else (u : Int) - 2 ^ 32

def Discretizer.discretize (d : Discretizer) (p : Vec3q) : DiscretizedPosition :=
  ⟨toInt32Cast ((p.1 - d.min.1) * d.scale),
   toInt32Cast ((p.2.1 - d.min.2.1) * d.scale),
   toInt32Cast ((p.2.2 - d.min.2.2) * d.scale)⟩

/-- An int32 converted to size_t: sign extension mod 2 pow 64. std::hash on an
integral type is the identity in the reference standard library. -/
def toSizeT (x : Int) : Nat := (x % (2 ^ 64 : Int)).toNat

/-- One step of the boost hash_combine variant used by
hash_discretized_position_, in size_t arithmetic. -/
def hashStep (h g : Nat) : Nat :=
  Nat.xor h ((g + 0x9e3779b9 + h * 2 ^ 6 + h / 2 ^ 2) % 2 ^ 64)

def hash_discretized_position_ (dp : DiscretizedPosition) : Nat :=
  hashStep (hashStep (toSizeT dp.x) (toSizeT dp.y)) (toSizeT dp.z)

/-- build_vicinity_map_: every vertex index, keyed by the hash of its
discretized position, in insertion order. -/
def build_vicinity_map_ (d : Discretizer) (ps : List Vec3q) : List (Nat × Nat) :=
  (List.range ps.length).map fun i =>
    (hash_discretized_position_ (d.discretize (ps.getD i (0, 0, 0))), i)

/-- equal_range on the vicinity multimap: all entries whose key equals the
requested hash (bucket order is unspecified in C++; none of the verified
properties depend on it). -/
def equalRange (vm : List (Nat × Nat)) (vk : Nat) : List Nat :=
  (vm.filter fun e => e.1 == vk).map Prod.snd

/-- mergable_ of index_mesh.cpp: per-axis absolute differences, positions
first, then normals when the soup has normals, then texcoords; the early
return loops are unrolled into a conjunction of per-axis tests. -/
def mergable_ (soup : TriangleSoup) (aI aJ : Nat) (pI pJ : Vec3q) (tol : ℚ) : Bool :=
  decide (|pI.1 - pJ.1| ≤ tol) && decide (|pI.2.1 - pJ.2.1| ≤ tol) &&
    decide (|pI.2.2 - pJ.2.2| ≤ tol) &&
  (soup.norm.isEmpty ||
    (decide (|(normAt soup aI).1 - (normAt soup aJ).1| ≤ tol) &&
     decide (|(normAt soup aI).2.1 - (normAt soup aJ).2.1| ≤ tol) &&
     decide (|(normAt soup aI).2.2 - (normAt soup aJ).2.2| ≤ tol))) &&
  decide (|(textAt soup aI).1 - (textAt soup aJ).1| ≤ tol) &&
  decide (|(textAt soup aI).2 - (textAt soup aJ).2| ≤ tol)

/-- The static 27-entry neighbour offset table of index_mesh.cpp. -/
def kNeighbourOffsets : List (Int × Int × Int) :=
  [(0, 0, 0), (0, 0, 1), (0, 0, -1),
   (0, 1, 0), (0, 1, 1), (0, 1, -1),
   (0, -1, 0), (0, -1, 1), (0, -1, -1),
   (1, 0, 0), (1, 0, 1), (1, 0, -1),
   (1, 1, 0), (1, 1, 1), (1, 1, -1),
   (1, -1, 0), (1, -1, 1), (1, -1, -1),
   (-1, 0, 0), (-1, 0, 1), (-1, 0, -1),
   (-1, 1, 0), (-1, 1, 1), (-1, 1, -1),
   (-1, -1, 0), (-1, -1, 1), (-1, -1, -1)]

def neighbour_ (dp : DiscretizedPosition) (j : Nat) : DiscretizedPosition :=
  let o := kNeighbourOffsets.getD j (0, 0, 0)
  ⟨dp.x + o.1, dp.y + o.2.1, dp.z + o.2.2⟩

/-- The mutable state of collapse_vertices_: the emitted index buffer (values
already narrowed by the uint32 cast of the push_back), the representative
table aVertices, the nextVertex counter, and the collapse map. The collapse
map is modelled as a total function where none stands for the unassigned
sentinel of the C++ code; only indices below the soup size are ever written
or read. -/
structure CollapseState where
  indices : List Nat
  verts : List Nat
  nextVertex : Nat
  collapseMap : Nat → Option Nat

/-- One candidate inspected inside the 27-cell scan of collapse_vertices_.
The second state component is the merged/target pair of the C++ code: none
before the first match, some target afterwards. -/
def scanCandidate (soup : TriangleSoup) (tol : ℚ) (i : Nat)
    (st : CollapseState × Option Nat) (idx : Nat) : CollapseState × Option Nat :=
  let s := st.1
  if idx = i then st
  else if (s.collapseMap idx).isSome then st
  else if mergable_ soup i idx (vertAt soup i) (vertAt soup idx) tol then
    match st.2 with
    | some t =>
      (⟨s.indices, s.verts, s.nextVertex,
        fun j => if j = idx then some t else s.collapseMap j⟩, some t)
    | none =>
      let t := s.nextVertex
      (⟨s.indices ++ [t % 2 ^ 32], s.verts ++ [i], t + 1,
        fun j => if j = idx then some t else if j = i then some t else s.collapseMap j⟩,
       some t)
  else st

/-- One iteration of the outer vertex loop of collapse_vertices_. -/
def processVertex (soup : TriangleSoup) (tol : ℚ) (vm : List (Nat × Nat)) (d : Discretizer)
    (s : CollapseState) (i : Nat) : CollapseState :=
  match s.collapseMap i with
  | some v => ⟨s.indices ++ [v % 2 ^ 32], s.verts, s.nextVertex, s.collapseMap⟩
  | none =>
    let dp := d.discretize (vertAt soup i)
    let cands := ((List.range 27).map fun j =>
      equalRange vm (hash_discretized_position_ (neighbour_ dp j))).flatten
    let st := cands.foldl (scanCandidate soup tol i) (s, none)
    match st.2 with
    | some _ => st.1
    | none =>
      let t := st.1.nextVertex
      ⟨st.1.indices ++ [t % 2 ^ 32], st.1.verts ++ [i], t + 1,
        fun j => if j = i then some t else st.1.collapseMap j⟩

def initState : CollapseState := ⟨[], [], 0, fun _ => none⟩

/-- collapse_vertices_ of index_mesh.cpp: process the vertices in order. -/
def collapse_vertices_ (vm : List (Nat × Nat)) (d : Discretizer) (soup : TriangleSoup)
    (tol : ℚ) : CollapseState :=
  (List.range soup.vert.length).foldl (processVertex soup tol vm d) initState

--++ Section 6: make_indexed_mesh (bounding box, grid, shuffle) ++--

def kAABBMarginFactor : ℚ := 10

def kSparseGridMaxSize : Nat := 1024 * 1024

/-- The float max initializer of the bounding-box fold. -/
def kFloatMax : ℚ := (2 ^ 24 - 1) * 2 ^ 104

/-- numeric_limits of float, min(): the smallest positive normal, 2 pow -126.
The C++ code initializes the running maximum with this (not with lowest()),
and the model keeps that behaviour. -/
def kFloatMinPositive : ℚ := 1 / 2 ^ 126

def vmin3 (a b : Vec3q) : Vec3q := (min a.1 b.1, min a.2.1 b.2.1, min a.2.2 b.2.2)

def vmax3 (a b : Vec3q) : Vec3q := (max a.1 b.1, max a.2.1 b.2.1, max a.2.2 b.2.2)

def soupBMin (soup : TriangleSoup) : Vec3q :=
  soup.vert.foldl vmin3 (kFloatMax, kFloatMax, kFloatMax)

def soupBMax (soup : TriangleSoup) : Vec3q :=
  soup.vert.foldl vmax3 (kFloatMinPositive, kFloatMinPositive, kFloatMinPositive)

def paddedMin (soup : TriangleSoup) (tol : ℚ) : Vec3q :=
  let b := soupBMin soup
  (b.1 - kAABBMarginFactor * tol, b.2.1 - kAABBMarginFactor * tol, b.2.2 - kAABBMarginFactor * tol)

def paddedMax (soup : TriangleSoup) (tol : ℚ) : Vec3q :=
  let b := soupBMax soup
  (b.1 + kAABBMarginFactor * tol, b.2.1 + kAABBMarginFactor * tol, b.2.2 + kAABBMarginFactor * tol)

/-- The longest side of the padded bounding box, as make_indexed_mesh
computes it: max(side.x, max(side.y, side.z)). -/
def maxSideOf (soup : TriangleSoup) (tol : ℚ) : ℚ :=
  let lo := paddedMin soup tol
  let hi := paddedMax soup tol
  max (hi.1 - lo.1) (max (hi.2.1 - lo.2.1) (hi.2.2 - lo.2.2))

/-- The grid subdivision count: size_t(numCells + .5f) truncates the
nonnegative value toward zero, then the result is capped at
kSparseGridMaxSize by std::min. -/
def gridSubdiv (soup : TriangleSoup) (tol : ℚ) : Nat :=
  let numCells := maxSideOf soup tol / (2 * tol)
  min kSparseGridMaxSize (Int.toNat ⌊numCells + 1 / 2⌋)

def discretizerOf (soup : TriangleSoup) (tol : ℚ) : Discretizer :=
  Discretizer.ofParams (gridSubdiv soup tol) (paddedMin soup tol) (maxSideOf soup tol)

/-- The collapse pass of make_indexed_mesh, with the vicinity map built over
the soup positions. -/
def collapseStateOf (soup : TriangleSoup) (tol : ℚ) : CollapseState :=
  let d := discretizerOf soup tol
  collapse_vertices_ (build_vicinity_map_ d soup.vert) d soup tol

def uniqueVertexCount (soup : TriangleSoup) (tol : ℚ) : Nat := (collapseStateOf soup tol).nextVertex

def vertexMapping (soup : TriangleSoup) (tol : ℚ) : List Nat := (collapseStateOf soup tol).verts

/-- The prefix of a run of collapse_vertices_: only the first k vertices of
the outer loop processed. -/
def collapseRun (soup : TriangleSoup) (tol : ℚ) (k : Nat) : CollapseState :=
  let d := discretizerOf soup tol
  ((List.range soup.vert.length).take k).foldl
    (processVertex soup tol (build_vicinity_map_ d soup.vert) d) initState

/-- IndexedMesh of index_mesh.hpp, without the tangent array: tangents are
produced by the external tgen library (spec section 4.3 delegates them to an
external collaborator), outside this embedding. -/
structure IndexedMesh where
  vert : List Vec3q
  norm : List Vec3q
  text : List Vec2q
  indices : List Nat
  aabbMin : Vec3q
  aabbMax : Vec3q

/-- make_indexed_mesh of index_mesh.cpp: collapse, then shuffle the vertex
data through the representative table (normals only when the soup has them);
the stored bounding box is the unpadded one. -/
def make_indexed_mesh (soup : TriangleSoup) (tol : ℚ) : IndexedMesh :=
  let st := collapseStateOf soup tol
  ⟨st.verts.map (vertAt soup),
   if soup.norm.isEmpty then [] else st.verts.map (normAt soup),
   st.verts.map (textAt soup),
   st.indices, soupBMin soup, soupBMax soup⟩

--++ Section 7: invariants and concrete inputs ++--

/-- The invariant carried through the outer loop of collapse_vertices_:
aVertices grows in lockstep with nextVertex, emitted indices and assigned
collapse-map slots stay below nextVertex, and representatives are original
vertex indices. -/
def CollapseInv (n : Nat) (s : CollapseState) : Prop :=
  s.verts.length = s.nextVertex ∧
  (∀ v ∈ s.indices, v < s.nextVertex) ∧
  (∀ j w, s.collapseMap j = some w → w < s.nextVertex) ∧
  (∀ r ∈ s.verts, r < n)

/-- Characterization of the inner 27-cell scan fold, relative to the state s0
at the start of the scan: before the first match the state is untouched; after
it, exactly one slot was allocated for vertex i and every newly assigned
collapse-map entry carries that slot. -/
def ScanP (s0 : CollapseState) (i : Nat) (st : CollapseState × Option Nat) : Prop :=
  (st.2 = none ∧ st.1 = s0) ∨
  (st.2 = some s0.nextVertex ∧
   st.1.indices = s0.indices ++ [s0.nextVertex % 2 ^ 32] ∧
   st.1.verts = s0.verts ++ [i] ∧
   st.1.nextVertex = s0.nextVertex + 1 ∧
   (∀ j w, st.1.collapseMap j = some w → s0.collapseMap j = some w ∨ w = s0.nextVertex) ∧
   (∀ j w, s0.collapseMap j = some w → st.1.collapseMap j = some w))

/-- A one-vertex soup. -/
def soupOne : TriangleSoup := ⟨[(0, 0, 0)], [], [(0, 0)]⟩

/-- A soup of two coincident vertices with equal attributes. -/
def soupPair : TriangleSoup := ⟨[(0, 0, 0), (0, 0, 0)], [], [(0, 0), (0, 0)]⟩

/-- A soup whose padded bounding box has longest side 21 at tolerance 1, so
that numCells is the non-integer 10.5. -/
def soupC8 : TriangleSoup := ⟨[(0, 0, 0), (1, 0, 0)], [], [(0, 0), (0, 0)]⟩

/-- The grid resolution formula with the words of the specification, as an
exact rational: min(maxGridCells, longestSide / (2 tolerance)). -/
def specGridResolutionQ (soup : TriangleSoup) (tol : ℚ) : ℚ :=
  min (kSparseGridMaxSize : ℚ) (maxSideOf soup tol / (2 * tol))

/-- Unit-cube corner id to position: bit 0 is x, bit 1 is y, bit 2 is z. -/
def cubePos (id : Nat) : Vec3q := ((id % 2 : Nat), ((id / 2) % 2 : Nat), ((id / 4) % 2 : Nat))

/-- Per-corner vertex normal, identical for every occurrence of a corner. -/
def cubeNorm (id : Nat) : Vec3q :=
  (2 * ((id % 2 : Nat) : ℚ) - 1, 2 * (((id / 2) % 2 : Nat) : ℚ) - 1,
    2 * (((id / 4) % 2 : Nat) : ℚ) - 1)

/-- A quad split into two triangles. -/
def cubeQuad (a b c d : Nat) : List Nat := [a, b, c, a, c, d]

/-- The 36 corner ids of the six cube faces. -/
def cubeIds : List Nat :=
  cubeQuad 0 1 3 2 ++ cubeQuad 4 5 7 6 ++ cubeQuad 0 1 5 4 ++
    cubeQuad 2 3 7 6 ++ cubeQuad 0 2 6 4 ++ cubeQuad 1 3 7 5

/-- The unit cube as a triangle soup: 36 corner entries, 8 distinct positions,
each position carrying the same normal and texcoord in all of its
occurrences. -/
def cubeSoup : TriangleSoup :=
  ⟨cubeIds.map cubePos, cubeIds.map cubeNorm, cubeIds.map fun _ => (0, 0)⟩

/-- A tiny writer input: one texture with the one-byte path "a", no materials,
no meshes. -/
def bakeEx : BakeInput := ⟨[⟨[97], 4⟩], [], []⟩


/-- Constructor-wise decidable equality for Except results, used to evaluate
the loader on concrete byte streams. -/
instance {e a : Type} [DecidableEq e] [DecidableEq a] : DecidableEq (Except e a) := fun x y =>
  match x, y with
  | .error u, .error v =>
    if h : u = v then .isTrue (h ▸ rfl) else .isFalse fun hc => h (Except.error.inj hc)
  | .ok u, .ok v =>
    if h : u = v then .isTrue (h ▸ rfl) else .isFalse fun hc => h (Except.ok.inj hc)
  | .error _, .ok _ => .isFalse fun hc => Except.noConfusion hc
  | .ok _, .error _ => .isFalse fun hc => Except.noConfusion hc

--++ Section 8: byte-level round-trip lemmas ++--

theorem encodeU32_length (n : Nat) : (encodeU32 n).length = 4 := rfl

theorem leNat_encodeU32 (n : Nat) : leNat (encodeU32 n) = n % 2 ^ 32 := by
  simp [encodeU32, leNat]
  omega

theorem checkedRead_append (l r : List Nat) : checkedRead l.length (l ++ r) = .ok (l, r) := by
  simp [checkedRead, List.length_append, List.take_left, List.drop_left]

theorem readUint32_append (n : Nat) (r : List Nat) (h : n < 2 ^ 32) :
    readUint32 (encodeU32 n ++ r) = .ok (n, r) := by
  unfold readUint32
  rw [← encodeU32_length n, checkedRead_append]
  simp [leNat_encodeU32]
  omega

theorem readString_write (s : List Nat) (r : List Nat) (h : s.length + 1 < kMaxString) :
    readString (write_string_ s ++ r) = .ok (s ++ [0], r) := by
  have h32 : s.length + 1 < 2 ^ 32 := by
    have : kMaxString < 2 ^ 32 := by norm_num [kMaxString]
    omega
  have hlen : (s ++ [0]).length = s.length + 1 := by simp
  unfold readString write_string_
  rw [List.append_assoc, List.append_assoc, readUint32_append _ _ h32]
  dsimp only
  rw [if_neg (by omega : ¬ kMaxString ≤ s.length + 1), ← List.append_assoc, ← hlen,
    checkedRead_append]

theorem readTexture_append (dir : List Nat) (t : TextureInfo) (r : List Nat) (h : WFTexture t) :
    readTexture dir (writeTexture t ++ r) = .ok (loadedTexture dir t, r) := by
  obtain ⟨h1, _, h3⟩ := h
  unfold readTexture writeTexture
  rw [List.append_assoc, readString_write _ _ h1]
  dsimp only
  rw [show (1 : Nat) = ([t.channels % 256] : List Nat).length from rfl, checkedRead_append]
  dsimp only
  simp [loadedTexture, leNat, Nat.mod_eq_of_lt h3]

theorem readTextures_append (dir : List Nat) (ts : List TextureInfo) (r : List Nat)
    (h : ∀ t ∈ ts, WFTexture t) :
    readTextures dir ts.length ((ts.map writeTexture).flatten ++ r) =
      .ok (ts.map (loadedTexture dir), r) := by
  induction ts generalizing r with
  | nil => simp [readTextures]
  | cons t ts ih =>
    simp only [List.map_cons, List.flatten_cons, List.length_cons, List.append_assoc]
    show readTextures dir (ts.length + 1) _ = _
    unfold readTextures
    rw [readTexture_append dir t _ (h t (by simp))]
    dsimp only
    rw [ih _ (fun x hx => h x (by simp [hx]))]

theorem write_tex_append (o : Option Nat) (r : List Nat) (h : WFRef o) :
    readUint32 (write_tex_ o ++ r) = .ok (refId o, r) := by
  cases o with
  | none => exact readUint32_append _ _ (by norm_num)
  | some id => exact readUint32_append _ _ (by simpa using h)

theorem readMaterial_append (m : MaterialRefs) (r : List Nat) (h : WFMaterial m) :
    readMaterial (writeMaterial m ++ r) = .ok (loadedMaterial m, r) := by
  obtain ⟨h1, h2, h3, h4, h5⟩ := h
  unfold readMaterial writeMaterial
  simp only [List.append_assoc]
  rw [write_tex_append _ _ h1]
  dsimp only
  rw [write_tex_append _ _ h2]
  dsimp only
  rw [write_tex_append _ _ h3]
  dsimp only
  rw [write_tex_append _ _ h4]
  dsimp only
  rw [write_tex_append _ _ h5]
  simp [loadedMaterial]

theorem readMaterials_append (ms : List MaterialRefs) (r : List Nat)
    (h : ∀ m ∈ ms, WFMaterial m) :
    readMaterials ms.length ((ms.map writeMaterial).flatten ++ r) =
      .ok (ms.map loadedMaterial, r) := by
  induction ms generalizing r with
  | nil => simp [readMaterials]
  | cons m ms ih =>
    simp only [List.map_cons, List.flatten_cons, List.length_cons, List.append_assoc]
    show readMaterials (ms.length + 1) _ = _
    unfold readMaterials
    rw [readMaterial_append m _ (h m (by simp))]
    dsimp only
    rw [ih _ (fun x hx => h x (by simp [hx]))]

theorem readVec3_append (v : Nat × Nat × Nat) (r : List Nat) (h : WFVec3 v) :
    readVec3 (encodeVec3 v ++ r) = .ok (v, r) := by
  obtain ⟨h1, h2, h3⟩ := h
  unfold readVec3 encodeVec3
  simp only [List.append_assoc]
  rw [readUint32_append _ _ h1]
  dsimp only
  rw [readUint32_append _ _ h2]
  dsimp only
  rw [readUint32_append _ _ h3]

theorem readVec2_append (v : Nat × Nat) (r : List Nat) (h : WFVec2 v) :
    readVec2 (encodeVec2 v ++ r) = .ok (v, r) := by
  obtain ⟨h1, h2⟩ := h
  unfold readVec2 encodeVec2
  simp only [List.append_assoc]
  rw [readUint32_append _ _ h1]
  dsimp only
  rw [readUint32_append _ _ h2]

theorem readVec4_append (v : Nat × Nat × Nat × Nat) (r : List Nat) (h : WFVec4 v) :
    readVec4 (encodeVec4 v ++ r) = .ok (v, r) := by
  obtain ⟨h1, h2, h3, h4⟩ := h
  unfold readVec4 encodeVec4
  simp only [List.append_assoc]
  rw [readUint32_append _ _ h1]
  dsimp only
  rw [show encodeU32 v.2.1 ++ (encodeU32 v.2.2.1 ++ (encodeU32 v.2.2.2 ++ r)) =
    encodeVec3 (v.2.1, v.2.2.1, v.2.2.2) ++ r from by simp [encodeVec3]]
  rw [readVec3_append _ _ ⟨h2, h3, h4⟩]

theorem readVec3List_append (l : List (Nat × Nat × Nat)) (n : Nat) (r : List Nat)
    (hn : n = l.length) (h : ∀ v ∈ l, WFVec3 v) :
    readVec3List n ((l.map encodeVec3).flatten ++ r) = .ok (l, r) := by
  subst hn
  induction l generalizing r with
  | nil => simp [readVec3List]
  | cons v l ih =>
    simp only [List.map_cons, List.flatten_cons, List.length_cons, List.append_assoc]
    show readVec3List (l.length + 1) _ = _
    unfold readVec3List
    rw [readVec3_append v _ (h v (by simp))]
    dsimp only
    rw [ih _ (fun x hx => h x (by simp [hx]))]

theorem readVec2List_append (l : List (Nat × Nat)) (n : Nat) (r : List Nat)
    (hn : n = l.length) (h : ∀ v ∈ l, WFVec2 v) :
    readVec2List n ((l.map encodeVec2).flatten ++ r) = .ok (l, r) := by
  subst hn
  induction l generalizing r with
  | nil => simp [readVec2List]
  | cons v l ih =>
    simp only [List.map_cons, List.flatten_cons, List.length_cons, List.append_assoc]
    show readVec2List (l.length + 1) _ = _
    unfold readVec2List
    rw [readVec2_append v _ (h v (by simp))]
    dsimp only
    rw [ih _ (fun x hx => h x (by simp [hx]))]

theorem readVec4List_append (l : List (Nat × Nat × Nat × Nat)) (n : Nat) (r : List Nat)
    (hn : n = l.length) (h : ∀ v ∈ l, WFVec4 v) :
    readVec4List n ((l.map encodeVec4).flatten ++ r) = .ok (l, r) := by
  subst hn
  induction l generalizing r with
  | nil => simp [readVec4List]
  | cons v l ih =>
    simp only [List.map_cons, List.flatten_cons, List.length_cons, List.append_assoc]
    show readVec4List (l.length + 1) _ = _
    unfold readVec4List
    rw [readVec4_append v _ (h v (by simp))]
    dsimp only
    rw [ih _ (fun x hx => h x (by simp [hx]))]

theorem readU32List_append (l : List Nat) (n : Nat) (r : List Nat)
    (hn : n = l.length) (h : ∀ v ∈ l, v < 2 ^ 32) :
    readU32List n ((l.map encodeU32).flatten ++ r) = .ok (l, r) := by
  subst hn
  induction l generalizing r with
  | nil => simp [readU32List]
  | cons v l ih =>
    simp only [List.map_cons, List.flatten_cons, List.length_cons, List.append_assoc]
    show readU32List (l.length + 1) _ = _
    unfold readU32List
    rw [readUint32_append _ _ (h v (by simp))]
    dsimp only
    rw [ih _ (fun x hx => h x (by simp [hx]))]

theorem readMesh_append (m : OutMesh) (r : List Nat) (h : WFMesh m) :
    readMesh (writeMesh m ++ r) = .ok (loadedMesh m, r) := by
  obtain ⟨h1, h2, h3, h4, h5, h6, h7, h8, h9, h10, h11⟩ := h
  unfold readMesh writeMesh
  simp only [List.append_assoc]
  rw [readUint32_append _ _ h1]
  dsimp only
  rw [readUint32_append _ _ h2]
  dsimp only
  rw [readUint32_append _ _ h3]
  dsimp only
  rw [readVec3List_append _ _ _ rfl h7]
  dsimp only
  rw [readVec3List_append _ _ _ h4.symm h8]
  dsimp only
  rw [readVec2List_append _ _ _ h5.symm h9]
  dsimp only
  rw [readVec4List_append _ _ _ h6.symm h10]
  dsimp only
  rw [readU32List_append _ _ _ rfl h11]
  simp [loadedMesh]

theorem readMeshes_append (ms : List OutMesh) (r : List Nat) (h : ∀ m ∈ ms, WFMesh m) :
    readMeshes ms.length ((ms.map writeMesh).flatten ++ r) = .ok (ms.map loadedMesh, r) := by
  induction ms generalizing r with
  | nil => simp [readMeshes]
  | cons m ms ih =>
    simp only [List.map_cons, List.flatten_cons, List.length_cons, List.append_assoc]
    show readMeshes (ms.length + 1) _ = _
    unfold readMeshes
    rw [readMesh_append m _ (h m (by simp))]
    dsimp only
    rw [ih _ (fun x hx => h x (by simp [hx]))]

theorem checkedRead16_magic (r : List Nat) :
    checkedRead 16 (kFileMagic ++ r) = .ok (kFileMagic, r) := checkedRead_append kFileMagic r

theorem checkedRead16_variant (r : List Nat) :
    checkedRead 16 (kFileVariant ++ r) = .ok (kFileVariant, r) := checkedRead_append kFileVariant r

/-- Core round-trip: the loader applied to the writer output, followed by any
trailing bytes, reconstructs the model; the trailing bytes are ignored. -/
theorem load_write_model (m : BakeInput) (name : List Nat) (extra : List Nat)
    (h : WFBakeInput m) :
    load_baked_model_ name (write_model_data_ m ++ extra) = .ok (bakedOf name m) := by
  obtain ⟨h1, h2, h3, h4, h5, h6⟩ := h
  unfold load_baked_model_ write_model_data_
  simp only [List.append_assoc]
  rw [checkedRead16_magic]
  dsimp only
  rw [if_pos rfl, checkedRead16_variant]
  dsimp only
  rw [if_pos rfl, readUint32_append _ _ h1]
  dsimp only
  rw [readTextures_append _ _ _ h4]
  dsimp only
  rw [readUint32_append _ _ h2]
  dsimp only
  rw [readMaterials_append _ _ h5]
  dsimp only
  rw [readUint32_append _ _ h3]
  dsimp only
  rw [readMeshes_append _ _ h6]
  simp [bakedOf]

--++ Section 9: merge-engine lemmas ++--

theorem foldl_preserve {α β : Type} (f : β → α → β) (P : β → Prop) :
    ∀ (l : List α), (∀ s x, P s → P (f s x)) → ∀ s, P s → P (l.foldl f s)
  | [], _, _, hs => hs
  | a :: l, hstep, s, hs => foldl_preserve f P l hstep (f s a) (hstep s a hs)

theorem foldl_preserve_mem {α β : Type} (f : β → α → β) (P : β → Prop) :
    ∀ (l : List α), (∀ s x, x ∈ l → P s → P (f s x)) → ∀ s, P s → P (l.foldl f s)
  | [], _, _, hs => hs
  | a :: l, hstep, s, hs =>
    foldl_preserve_mem f P l (fun s x hx h => hstep s x (by simp [hx]) h) (f s a)
      (hstep s a (by simp) hs)

theorem scanCandidate_preserves (soup : TriangleSoup) (tol : ℚ) (i : Nat)
    (s0 : CollapseState) (h0 : s0.collapseMap i = none)
    (st : CollapseState × Option Nat) (idx : Nat) (h : ScanP s0 i st) :
    ScanP s0 i (scanCandidate soup tol i st idx) := by
  unfold scanCandidate
  by_cases hidx : idx = i
  · rw [if_pos hidx]; exact h
  · rw [if_neg hidx]
    by_cases hsome : (st.1.collapseMap idx).isSome = true
    · rw [if_pos hsome]; exact h
    · rw [if_neg hsome]
      have hnone : st.1.collapseMap idx = none := Option.not_isSome_iff_eq_none.1 hsome
      by_cases hm : mergable_ soup i idx (vertAt soup i) (vertAt soup idx) tol = true
      · rw [if_pos hm]
        rcases h with ⟨h2, h1⟩ | ⟨h2, hind, hverts, hnv, hfwd, hbwd⟩
        · rw [h2]
          dsimp only
          subst h1
          refine Or.inr ⟨rfl, rfl, rfl, rfl, ?_, ?_⟩
          · intro j w hw
            dsimp only at hw
            by_cases hji : j = idx
            · rw [if_pos hji] at hw
              exact Or.inr (Option.some.inj hw).symm
            · rw [if_neg hji] at hw
              by_cases hjj : j = i
              · rw [if_pos hjj] at hw
                exact Or.inr (Option.some.inj hw).symm
              · rw [if_neg hjj] at hw
                exact Or.inl hw
          · intro j w hw
            dsimp only
            by_cases hji : j = idx
            · exfalso; rw [hji, hnone] at hw; cases hw
            · rw [if_neg hji]
              by_cases hjj : j = i
              · exfalso; rw [hjj, h0] at hw; cases hw
              · rw [if_neg hjj]; exact hw
        · rw [h2]
          dsimp only
          refine Or.inr ⟨rfl, hind, hverts, hnv, ?_, ?_⟩
          · intro j w hw
            dsimp only at hw
            by_cases hji : j = idx
            · rw [if_pos hji] at hw
              exact Or.inr (Option.some.inj hw).symm
            · rw [if_neg hji] at hw
              exact hfwd j w hw
          · intro j w hw
            dsimp only
            by_cases hji : j = idx
            · exfalso
              have := hbwd j w hw
              rw [hji, hnone] at this
              cases this
            · rw [if_neg hji]; exact hbwd j w hw
      · rw [if_neg hm]; exact h

theorem processVertex_spec (soup : TriangleSoup) (tol : ℚ) (vm : List (Nat × Nat))
    (d : Discretizer) (s : CollapseState) (i : Nat) :
    (∃ v, s.collapseMap i = some v ∧
       processVertex soup tol vm d s i =
         ⟨s.indices ++ [v % 2 ^ 32], s.verts, s.nextVertex, s.collapseMap⟩) ∨
    (s.collapseMap i = none ∧ ∃ cm,
       processVertex soup tol vm d s i =
         ⟨s.indices ++ [s.nextVertex % 2 ^ 32], s.verts ++ [i], s.nextVertex + 1, cm⟩ ∧
       (∀ j w, cm j = some w → s.collapseMap j = some w ∨ w = s.nextVertex) ∧
       (∀ j w, s.collapseMap j = some w → cm j = some w)) := by
  cases hcm : s.collapseMap i with
  | some v =>
    left
    refine ⟨v, rfl, ?_⟩
    unfold processVertex
    rw [hcm]
  | none =>
    right
    refine ⟨rfl, ?_⟩
    unfold processVertex
    rw [hcm]
    dsimp only
    have hP : ScanP s i
        ((((List.range 27).map fun j =>
            equalRange vm (hash_discretized_position_
              (neighbour_ (d.discretize (vertAt soup i)) j))).flatten).foldl
          (scanCandidate soup tol i) (s, none)) := by
      apply foldl_preserve (scanCandidate soup tol i) (ScanP s i)
      · intro st x hst
        exact scanCandidate_preserves soup tol i s hcm st x hst
      · exact Or.inl ⟨rfl, rfl⟩
    generalize hfold : (((List.range 27).map fun j =>
        equalRange vm (hash_discretized_position_
          (neighbour_ (d.discretize (vertAt soup i)) j))).flatten).foldl
      (scanCandidate soup tol i) (s, none) = stp
    rw [hfold] at hP
    obtain ⟨s1, tgt⟩ := stp
    rcases hP with ⟨h2, h1⟩ | ⟨h2, hind, hverts, hnv, hfwd, hbwd⟩
    · dsimp only at h2 h1
      subst h2
      dsimp only
      rw [h1]
      refine ⟨fun j => if j = i then some s.nextVertex else s.collapseMap j, rfl, ?_, ?_⟩
      · intro j w hw
        dsimp only at hw
        by_cases hjj : j = i
        · rw [if_pos hjj] at hw
          exact Or.inr (Option.some.inj hw).symm
        · rw [if_neg hjj] at hw
          exact Or.inl hw
      · intro j w hw
        dsimp only
        by_cases hjj : j = i
        · exfalso; rw [hjj, hcm] at hw; cases hw
        · rw [if_neg hjj]; exact hw
    · dsimp only at h2 hind hverts hnv hfwd hbwd
      subst h2
      dsimp only
      refine ⟨s1.collapseMap, ?_, hfwd, hbwd⟩
      obtain ⟨a, b, c, cm⟩ := s1
      dsimp only at hind hverts hnv
      rw [hind, hverts, hnv]

theorem processVertex_keeps_assigned (soup : TriangleSoup) (tol : ℚ) (vm : List (Nat × Nat))
    (d : Discretizer) (s : CollapseState) (i j w : Nat)
    (h : s.collapseMap j = some w) :
    (processVertex soup tol vm d s i).collapseMap j = some w := by
  rcases processVertex_spec soup tol vm d s i with ⟨v, _, he⟩ | ⟨_, cm, he, _, hbwd⟩
  · rw [he]; exact h
  · rw [he]; exact hbwd j w h

theorem processVertex_inv (soup : TriangleSoup) (tol : ℚ) (vm : List (Nat × Nat))
    (d : Discretizer) (n : Nat) (s : CollapseState) (i : Nat) (hin : i < n)
    (h : CollapseInv n s) : CollapseInv n (processVertex soup tol vm d s i) := by
  obtain ⟨hv, hi, hc, hr⟩ := h
  rcases processVertex_spec soup tol vm d s i with ⟨v, hcm, he⟩ | ⟨_, cm, he, hfwd, _⟩
  · rw [he]
    refine ⟨hv, ?_, hc, hr⟩
    intro x hx
    rcases List.mem_append.1 hx with hx | hx
    · exact hi x hx
    · simp only [List.mem_singleton] at hx
      subst hx
      exact lt_of_le_of_lt (Nat.mod_le _ _) (hc i v hcm)
  · rw [he]
    refine ⟨by simp [hv], ?_, ?_, ?_⟩
    · intro x hx
      rcases List.mem_append.1 hx with hx | hx
      · exact Nat.lt_succ_of_lt (hi x hx)
      · simp only [List.mem_singleton] at hx
        subst hx
        exact Nat.lt_succ_of_le (Nat.mod_le _ _)
    · intro j w hw
      dsimp only at hw ⊢
      rcases hfwd j w hw with h' | h'
      · exact Nat.lt_succ_of_lt (hc j w h')
      · omega
    · intro r hrm
      rcases List.mem_append.1 hrm with h' | h'
      · exact hr r h'
      · simp only [List.mem_singleton] at h'
        subst h'
        exact hin

theorem collapse_inv (soup : TriangleSoup) (tol : ℚ) :
    CollapseInv soup.vert.length (collapseStateOf soup tol) := by
  unfold collapseStateOf collapse_vertices_
  apply foldl_preserve_mem _ (CollapseInv soup.vert.length)
  · intro s x hx h
    exact processVertex_inv _ _ _ _ _ s x (List.mem_range.1 hx) h
  · refine ⟨rfl, ?_, ?_, ?_⟩
    · intro v hv; simp [initState] at hv
    · intro j w hw; simp [initState] at hw
    · intro r hr; simp [initState] at hr

theorem collapse_fold_indices_length (soup : TriangleSoup) (tol : ℚ) (vm : List (Nat × Nat))
    (d : Discretizer) :
    ∀ (l : List Nat) (s : CollapseState),
      ((l.foldl (processVertex soup tol vm d) s).indices).length = s.indices.length + l.length
  | [], s => by simp
  | a :: l, s => by
    rw [List.foldl_cons,
      collapse_fold_indices_length soup tol vm d l (processVertex soup tol vm d s a)]
    rcases processVertex_spec soup tol vm d s a with ⟨v, _, he⟩ | ⟨_, cm, he, _, _⟩ <;>
      · rw [he]; simp; omega

theorem collapse_indices_length (soup : TriangleSoup) (tol : ℚ) :
    (collapseStateOf soup tol).indices.length = soup.vert.length := by
  unfold collapseStateOf collapse_vertices_
  rw [collapse_fold_indices_length]
  simp [initState]

--++ Section 9b: truncated-stream lemmas ++--

theorem checkedRead_short (n : Nat) (bs : List Nat) (h : bs.length < n) :
    checkedRead n bs = .error "checked_read_: short read" := by
  simp [checkedRead, show ¬ n ≤ bs.length from by omega]

theorem readUint32_short (bs : List Nat) (h : bs.length < 4) :
    readUint32 bs = .error "checked_read_: short read" := by
  unfold readUint32
  rw [checkedRead_short 4 bs h]

theorem readUint32_any (bs : List Nat) (h : 4 ≤ bs.length) :
    readUint32 bs = .ok (leNat (bs.take 4), bs.drop 4) := by
  unfold readUint32
  rw [show checkedRead 4 bs = .ok (bs.take 4, bs.drop 4) from by simp [checkedRead, h]]

theorem take_append_long (b c : List Nat) (k : Nat) (h : b.length ≤ k) :
    (b ++ c).take k = b ++ c.take (k - b.length) := by
  rw [List.take_append_eq_append_take, List.take_of_length_le h]

theorem readVec3_short (bs : List Nat) (h : bs.length < 12) :
    readVec3 bs = .error "checked_read_: short read" := by
  have hd4 : (bs.drop 4).length = bs.length - 4 := by simp
  have hd8 : ((bs.drop 4).drop 4).length = bs.length - 8 := by simp
  unfold readVec3
  by_cases h4 : 4 ≤ bs.length
  · rw [readUint32_any bs h4]
    dsimp only
    by_cases h8 : 8 ≤ bs.length
    · rw [readUint32_any _ (by omega)]
      dsimp only
      rw [readUint32_short _ (by omega)]
    · rw [readUint32_short _ (by omega)]
  · rw [readUint32_short bs (by omega)]

theorem readVec3_any (bs : List Nat) (h : 12 ≤ bs.length) :
    readVec3 bs = .ok ((leNat (bs.take 4), leNat ((bs.drop 4).take 4),
      leNat (((bs.drop 4).drop 4).take 4)), bs.drop 12) := by
  have hd4 : (bs.drop 4).length = bs.length - 4 := by simp
  have hd8 : ((bs.drop 4).drop 4).length = bs.length - 8 := by simp
  unfold readVec3
  rw [readUint32_any bs (by omega)]
  dsimp only
  rw [readUint32_any _ (by omega)]
  dsimp only
  rw [readUint32_any _ (by omega)]
  dsimp only
  rw [show ((bs.drop 4).drop 4).drop 4 = bs.drop 12 from by simp [List.drop_drop]]

theorem readVec2_short (bs : List Nat) (h : bs.length < 8) :
    readVec2 bs = .error "checked_read_: short read" := by
  have hd4 : (bs.drop 4).length = bs.length - 4 := by simp
  unfold readVec2
  by_cases h4 : 4 ≤ bs.length
  · rw [readUint32_any bs h4]
    dsimp only
    rw [readUint32_short _ (by omega)]
  · rw [readUint32_short bs (by omega)]

theorem readVec2_any (bs : List Nat) (h : 8 ≤ bs.length) :
    readVec2 bs = .ok ((leNat (bs.take 4), leNat ((bs.drop 4).take 4)), bs.drop 8) := by
  have hd4 : (bs.drop 4).length = bs.length - 4 := by simp
  unfold readVec2
  rw [readUint32_any bs (by omega)]
  dsimp only
  rw [readUint32_any _ (by omega)]
  dsimp only
  rw [show (bs.drop 4).drop 4 = bs.drop 8 from by simp [List.drop_drop]]

theorem readVec4_short (bs : List Nat) (h : bs.length < 16) :
    readVec4 bs = .error "checked_read_: short read" := by
  have hd4 : (bs.drop 4).length = bs.length - 4 := by simp
  unfold readVec4
  by_cases h4 : 4 ≤ bs.length
  · rw [readUint32_any bs h4]
    dsimp only
    rw [readVec3_short _ (by omega)]
  · rw [readUint32_short bs (by omega)]

theorem readVec4_any (bs : List Nat) (h : 16 ≤ bs.length) :
    readVec4 bs = .ok ((leNat (bs.take 4), leNat ((bs.drop 4).take 4),
      leNat (((bs.drop 4).drop 4).take 4), leNat ((((bs.drop 4).drop 4).drop 4).take 4)),
      bs.drop 16) := by
  have hd4 : (bs.drop 4).length = bs.length - 4 := by simp
  unfold readVec4
  rw [readUint32_any bs (by omega)]
  dsimp only
  rw [readVec3_any _ (by omega)]
  dsimp only
  rw [show (bs.drop 4).drop 12 = bs.drop 16 from by simp [List.drop_drop]]

theorem readMaterial_short (bs : List Nat) (h : bs.length < 20) :
    readMaterial bs = .error "checked_read_: short read" := by
  have hd4 : (bs.drop 4).length = bs.length - 4 := by simp
  have hd8 : ((bs.drop 4).drop 4).length = bs.length - 8 := by simp
  have hd12 : (((bs.drop 4).drop 4).drop 4).length = bs.length - 12 := by simp
  have hd16 : ((((bs.drop 4).drop 4).drop 4).drop 4).length = bs.length - 16 := by simp
  unfold readMaterial
  by_cases h4 : 4 ≤ bs.length
  · rw [readUint32_any bs h4]
    dsimp only
    by_cases h8 : 8 ≤ bs.length
    · rw [readUint32_any _ (by omega)]
      dsimp only
      by_cases h12 : 12 ≤ bs.length
      · rw [readUint32_any _ (by omega)]
        dsimp only
        by_cases h16 : 16 ≤ bs.length
        · rw [readUint32_any _ (by omega)]
          dsimp only
          rw [readUint32_short _ (by omega)]
        · rw [readUint32_short _ (by omega)]
      · rw [readUint32_short _ (by omega)]
    · rw [readUint32_short _ (by omega)]
  · rw [readUint32_short bs (by omega)]

theorem readMaterial_any (bs : List Nat) (h : 20 ≤ bs.length) :
    readMaterial bs = .ok (⟨leNat (bs.take 4), leNat ((bs.drop 4).take 4),
      leNat (((bs.drop 4).drop 4).take 4), leNat ((((bs.drop 4).drop 4).drop 4).take 4),
      leNat (((((bs.drop 4).drop 4).drop 4).drop 4).take 4)⟩, bs.drop 20) := by
  have hd4 : (bs.drop 4).length = bs.length - 4 := by simp
  have hd8 : ((bs.drop 4).drop 4).length = bs.length - 8 := by simp
  have hd12 : (((bs.drop 4).drop 4).drop 4).length = bs.length - 12 := by simp
  have hd16 : ((((bs.drop 4).drop 4).drop 4).drop 4).length = bs.length - 16 := by simp
  unfold readMaterial
  rw [readUint32_any bs (by omega)]
  dsimp only
  rw [readUint32_any _ (by omega)]
  dsimp only
  rw [readUint32_any _ (by omega)]
  dsimp only
  rw [readUint32_any _ (by omega)]
  dsimp only
  rw [readUint32_any _ (by omega)]
  dsimp only
  rw [show ((((bs.drop 4).drop 4).drop 4).drop 4).drop 4 = bs.drop 20 from by
    simp [List.drop_drop]]

theorem readVec3List_short : ∀ (n : Nat) (bs : List Nat), bs.length < 12 * n →
    readVec3List n bs = .error "checked_read_: short read"
  | 0, _, h => absurd h (by omega)
  | n + 1, bs, h => by
    unfold readVec3List
    by_cases h12 : 12 ≤ bs.length
    · rw [readVec3_any bs h12]
      dsimp only
      rw [readVec3List_short n (bs.drop 12) (by simp; omega)]
    · rw [readVec3_short bs (by omega)]

theorem readVec2List_short : ∀ (n : Nat) (bs : List Nat), bs.length < 8 * n →
    readVec2List n bs = .error "checked_read_: short read"
  | 0, _, h => absurd h (by omega)
  | n + 1, bs, h => by
    unfold readVec2List
    by_cases h8 : 8 ≤ bs.length
    · rw [readVec2_any bs h8]
      dsimp only
      rw [readVec2List_short n (bs.drop 8) (by simp; omega)]
    · rw [readVec2_short bs (by omega)]

theorem readVec4List_short : ∀ (n : Nat) (bs : List Nat), bs.length < 16 * n →
    readVec4List n bs = .error "checked_read_: short read"
  | 0, _, h => absurd h (by omega)
  | n + 1, bs, h => by
    unfold readVec4List
    by_cases h16 : 16 ≤ bs.length
    · rw [readVec4_any bs h16]
      dsimp only
      rw [readVec4List_short n (bs.drop 16) (by simp; omega)]
    · rw [readVec4_short bs (by omega)]

theorem readU32List_short : ∀ (n : Nat) (bs : List Nat), bs.length < 4 * n →
    readU32List n bs = .error "checked_read_: short read"
  | 0, _, h => absurd h (by omega)
  | n + 1, bs, h => by
    unfold readU32List
    by_cases h4 : 4 ≤ bs.length
    · rw [readUint32_any bs h4]
      dsimp only
      rw [readU32List_short n (bs.drop 4) (by simp; omega)]
    · rw [readUint32_short bs (by omega)]

theorem readMaterials_short : ∀ (n : Nat) (bs : List Nat), bs.length < 20 * n →
    readMaterials n bs = .error "checked_read_: short read"
  | 0, _, h => absurd h (by omega)
  | n + 1, bs, h => by
    unfold readMaterials
    by_cases h20 : 20 ≤ bs.length
    · rw [readMaterial_any bs h20]
      dsimp only
      rw [readMaterials_short n (bs.drop 20) (by simp; omega)]
    · rw [readMaterial_short bs (by omega)]

theorem readString_trunc (s : List Nat) (k : Nat) (hWF : s.length + 1 < kMaxString)
    (hk : k < (write_string_ s).length) :
    readString ((write_string_ s).take k) = .error "checked_read_: short read" := by
  have hlen : (write_string_ s).length = 4 + (s.length + 1) := by
    simp [write_string_, encodeU32]
    omega
  have h32 : s.length + 1 < 2 ^ 32 := by
    have : kMaxString < 2 ^ 32 := by norm_num [kMaxString]
    omega
  unfold readString
  by_cases h4 : 4 ≤ k
  · rw [show (write_string_ s).take k =
        encodeU32 (s.length + 1) ++ (s ++ [0]).take (k - 4) from by
      unfold write_string_
      rw [List.append_assoc, take_append_long _ _ _ (by rw [encodeU32_length]; omega),
        encodeU32_length]]
    rw [readUint32_append _ _ h32]
    dsimp only
    rw [if_neg (by omega : ¬ kMaxString ≤ s.length + 1)]
    rw [checkedRead_short _ _ (by
      have hle : ((s ++ [0]).take (k - 4)).length ≤ k - 4 := List.length_take_le _ _
      omega)]
  · rw [readUint32_short _ (lt_of_le_of_lt (List.length_take_le _ _) (by omega))]

theorem readTexture_trunc (dir : List Nat) (t : TextureInfo) (k : Nat) (hWF : WFTexture t)
    (hk : k < (writeTexture t).length) :
    readTexture dir ((writeTexture t).take k) = .error "checked_read_: short read" := by
  obtain ⟨h1, _, _⟩ := hWF
  have hwt : (writeTexture t).length = (write_string_ t.newPath).length + 1 := by
    simp [writeTexture]
  unfold readTexture
  by_cases hkk : k < (write_string_ t.newPath).length
  · rw [show (writeTexture t).take k = (write_string_ t.newPath).take k from by
      unfold writeTexture
      rw [List.take_append_of_le_length (by omega)]]
    rw [readString_trunc _ _ h1 hkk]
  · have hkeq : k = (write_string_ t.newPath).length := by omega
    rw [show (writeTexture t).take k = write_string_ t.newPath ++ ([] : List Nat) from by
      unfold writeTexture
      rw [hkeq, List.take_append_eq_append_take, List.take_length]
      simp]
    rw [readString_write _ _ h1]
    dsimp only
    rw [checkedRead_short 1 [] (by simp)]

theorem readTextures_trunc (dir : List Nat) : ∀ (ts : List TextureInfo) (k : Nat),
    (∀ t ∈ ts, WFTexture t) → k < ((ts.map writeTexture).flatten).length →
    readTextures dir ts.length (((ts.map writeTexture).flatten).take k) =
      .error "checked_read_: short read"
  | [], _, _, hk => absurd hk (by simp)
  | t :: ts, k, hWF, hk => by
    have hk' : k < (writeTexture t).length + ((ts.map writeTexture).flatten).length := by
      simpa using hk
    simp only [List.map_cons, List.flatten_cons, List.length_cons]
    show readTextures dir (ts.length + 1) _ = _
    unfold readTextures
    by_cases hsplit : k < (writeTexture t).length
    · rw [List.take_append_of_le_length (by omega)]
      rw [readTexture_trunc dir t k (hWF t (by simp)) hsplit]
    · rw [take_append_long _ _ _ (by omega)]
      rw [readTexture_append dir t _ (hWF t (by simp))]
      dsimp only
      rw [readTextures_trunc dir ts (k - (writeTexture t).length)
        (fun x hx => hWF x (by simp [hx])) (by omega)]

theorem length_flatten_vec3 (l : List (Nat × Nat × Nat)) :
    ((l.map encodeVec3).flatten).length = 12 * l.length := by
  induction l with
  | nil => simp
  | cons v l ih =>
    simp [encodeVec3, encodeU32, ih]
    omega

theorem length_flatten_vec2 (l : List (Nat × Nat)) :
    ((l.map encodeVec2).flatten).length = 8 * l.length := by
  induction l with
  | nil => simp
  | cons v l ih =>
    simp [encodeVec2, encodeU32, ih]
    omega

theorem length_flatten_vec4 (l : List (Nat × Nat × Nat × Nat)) :
    ((l.map encodeVec4).flatten).length = 16 * l.length := by
  induction l with
  | nil => simp
  | cons v l ih =>
    simp [encodeVec4, encodeU32, ih]
    omega

theorem length_flatten_u32 (l : List Nat) :
    ((l.map encodeU32).flatten).length = 4 * l.length := by
  induction l with
  | nil => simp
  | cons v l ih =>
    simp [encodeU32, ih]
    omega

theorem write_tex_length (o : Option Nat) : (write_tex_ o).length = 4 := by
  cases o <;> rfl

theorem length_flatten_material (l : List MaterialRefs) :
    ((l.map writeMaterial).flatten).length = 20 * l.length := by
  induction l with
  | nil => simp
  | cons v l ih =>
    simp [writeMaterial, write_tex_length, ih]
    omega

theorem readMesh_trunc (m : OutMesh) (k : Nat) (hWF : WFMesh m)
    (hk : k < (writeMesh m).length) :
    readMesh ((writeMesh m).take k) = .error "checked_read_: short read" := by
  obtain ⟨h1, h2, h3, h4, h5, h6, h7, h8, h9, h10, h11⟩ := hWF
  have lB1 : ((m.vert.map encodeVec3).flatten).length = 12 * m.vert.length :=
    length_flatten_vec3 _
  have lB2 : ((m.norm.map encodeVec3).flatten).length = 12 * m.vert.length := by
    rw [length_flatten_vec3, h4]
  have lB3 : ((m.text.map encodeVec2).flatten).length = 8 * m.vert.length := by
    rw [length_flatten_vec2, h5]
  have lB4 : ((m.tangent.map encodeVec4).flatten).length = 16 * m.vert.length := by
    rw [length_flatten_vec4, h6]
  have lB5 : ((m.indices.map encodeU32).flatten).length = 4 * m.indices.length :=
    length_flatten_u32 _
  have hW : writeMesh m =
      encodeU32 m.materialIndex ++ (encodeU32 m.vert.length ++ (encodeU32 m.indices.length ++
        ((m.vert.map encodeVec3).flatten ++ ((m.norm.map encodeVec3).flatten ++
          ((m.text.map encodeVec2).flatten ++ ((m.tangent.map encodeVec4).flatten ++
            (m.indices.map encodeU32).flatten)))))) := by
    simp [writeMesh, List.append_assoc]
  have hlen : (writeMesh m).length =
      12 + 12 * m.vert.length + 12 * m.vert.length + 8 * m.vert.length +
        16 * m.vert.length + 4 * m.indices.length := by
    rw [hW]
    simp [List.length_append, lB1, lB2, lB3, lB4, lB5, encodeU32]
    omega
  rw [hW]
  unfold readMesh
  by_cases c1 : k < 4
  · rw [readUint32_short _ (lt_of_le_of_lt (List.length_take_le _ _) c1)]
  · rw [take_append_long _ _ _ (by rw [encodeU32_length]; omega), encodeU32_length,
      readUint32_append _ _ h1]
    dsimp only
    by_cases c2 : k < 8
    · rw [readUint32_short _ (lt_of_le_of_lt (List.length_take_le _ _) (by omega))]
    · rw [take_append_long _ _ _ (by rw [encodeU32_length]; omega), encodeU32_length,
        readUint32_append _ _ h2]
      dsimp only
      by_cases c3 : k < 12
      · rw [readUint32_short _ (lt_of_le_of_lt (List.length_take_le _ _) (by omega))]
      · rw [take_append_long _ _ _ (by rw [encodeU32_length]; omega), encodeU32_length,
          readUint32_append _ _ h3]
        dsimp only
        by_cases c4 : k < 12 + 12 * m.vert.length
        · rw [readVec3List_short m.vert.length _
            (lt_of_le_of_lt (List.length_take_le _ _) (by omega))]
        · rw [take_append_long _ _ _ (by rw [lB1]; omega), lB1,
            readVec3List_append m.vert m.vert.length _ rfl h7]
          dsimp only
          by_cases c5 : k < 12 + 24 * m.vert.length
          · rw [readVec3List_short m.vert.length _
              (lt_of_le_of_lt (List.length_take_le _ _) (by omega))]
          · rw [take_append_long _ _ _ (by rw [lB2]; omega), lB2,
              readVec3List_append m.norm m.vert.length _ h4.symm h8]
            dsimp only
            by_cases c6 : k < 12 + 32 * m.vert.length
            · rw [readVec2List_short m.vert.length _
                (lt_of_le_of_lt (List.length_take_le _ _) (by omega))]
            · rw [take_append_long _ _ _ (by rw [lB3]; omega), lB3,
                readVec2List_append m.text m.vert.length _ h5.symm h9]
              dsimp only
              by_cases c7 : k < 12 + 48 * m.vert.length
              · rw [readVec4List_short m.vert.length _
                  (lt_of_le_of_lt (List.length_take_le _ _) (by omega))]
              · rw [take_append_long _ _ _ (by rw [lB4]; omega), lB4,
                  readVec4List_append m.tangent m.vert.length _ h6.symm h10]
                dsimp only
                rw [readU32List_short m.indices.length _
                  (lt_of_le_of_lt (List.length_take_le _ _) (by omega))]

theorem readMeshes_trunc : ∀ (ms : List OutMesh) (k : Nat),
    (∀ x ∈ ms, WFMesh x) → k < ((ms.map writeMesh).flatten).length →
    readMeshes ms.length (((ms.map writeMesh).flatten).take k) =
      .error "checked_read_: short read"
  | [], _, _, hk => absurd hk (by simp)
  | mh :: ms, k, hWF, hk => by
    have hk2 : k < (writeMesh mh).length + ((ms.map writeMesh).flatten).length := by
      simpa using hk
    simp only [List.map_cons, List.flatten_cons, List.length_cons]
    show readMeshes (ms.length + 1) _ = _
    unfold readMeshes
    by_cases hsplit : k < (writeMesh mh).length
    · rw [List.take_append_of_le_length (by omega)]
      rw [readMesh_trunc mh k (hWF mh (by simp)) hsplit]
    · rw [take_append_long _ _ _ (by omega)]
      rw [readMesh_append mh _ (hWF mh (by simp))]
      dsimp only
      rw [readMeshes_trunc ms (k - (writeMesh mh).length)
        (fun x hx => hWF x (by simp [hx])) (by omega)]

/-- Core truncation result: cutting a well-formed serialized container
anywhere strictly inside it makes the loader fail with a short read; no model
is produced. -/
theorem load_write_trunc (m : BakeInput) (name : List Nat) (k : Nat) (h : WFBakeInput m)
    (hk : k < (write_model_data_ m).length) :
    load_baked_model_ name ((write_model_data_ m).take k) =
      .error "checked_read_: short read" := by
  obtain ⟨h1, h2, h3, h4, h5, h6⟩ := h
  have hM16 : kFileMagic.length = 16 := rfl
  have hV16 : kFileVariant.length = 16 := rfl
  have lMat : ((m.materials.map writeMaterial).flatten).length = 20 * m.materials.length :=
    length_flatten_material _
  have hW : write_model_data_ m =
      kFileMagic ++ (kFileVariant ++ (encodeU32 m.textures.length ++
        ((m.textures.map writeTexture).flatten ++ (encodeU32 m.materials.length ++
          ((m.materials.map writeMaterial).flatten ++ (encodeU32 m.meshes.length ++
            (m.meshes.map writeMesh).flatten)))))) := by
    simp [write_model_data_, List.append_assoc]
  have hlen : (write_model_data_ m).length =
      44 + ((m.textures.map writeTexture).flatten).length + 20 * m.materials.length +
        ((m.meshes.map writeMesh).flatten).length := by
    rw [hW]
    simp [List.length_append, lMat, encodeU32, kFileMagic, kFileVariant]
    omega
  rw [hW]
  unfold load_baked_model_
  dsimp only
  by_cases c1 : k < 16
  · rw [checkedRead_short 16 _ (lt_of_le_of_lt (List.length_take_le _ _) c1)]
  · rw [take_append_long _ _ _ (by rw [hM16]; omega), hM16, checkedRead16_magic]
    dsimp only
    rw [if_pos rfl]
    by_cases c2 : k < 32
    · rw [checkedRead_short 16 _ (lt_of_le_of_lt (List.length_take_le _ _) (by omega))]
    · rw [take_append_long _ _ _ (by rw [hV16]; omega), hV16, checkedRead16_variant]
      dsimp only
      rw [if_pos rfl]
      by_cases c3 : k < 36
      · rw [readUint32_short _ (lt_of_le_of_lt (List.length_take_le _ _) (by omega))]
      · rw [take_append_long _ _ _ (by rw [encodeU32_length]; omega), encodeU32_length,
          readUint32_append _ _ h1]
        dsimp only
        by_cases c4 : k < 36 + ((m.textures.map writeTexture).flatten).length
        · rw [List.take_append_of_le_length (by omega)]
          rw [readTextures_trunc (baseDir name) m.textures (k - 16 - 16 - 4) h4 (by omega)]
        · rw [take_append_long _ _ _ (by omega), readTextures_append _ _ _ h4]
          dsimp only
          by_cases c5 : k < 40 + ((m.textures.map writeTexture).flatten).length
          · rw [readUint32_short _ (lt_of_le_of_lt (List.length_take_le _ _) (by omega))]
          · rw [take_append_long _ _ _ (by rw [encodeU32_length]; omega), encodeU32_length,
              readUint32_append _ _ h2]
            dsimp only
            by_cases c6 : k < 40 + ((m.textures.map writeTexture).flatten).length +
                20 * m.materials.length
            · rw [readMaterials_short m.materials.length _
                (lt_of_le_of_lt (List.length_take_le _ _) (by omega))]
            · rw [take_append_long _ _ _ (by rw [lMat]; omega), lMat,
                readMaterials_append _ _ h5]
              dsimp only
              by_cases c7 : k < 44 + ((m.textures.map writeTexture).flatten).length +
                  20 * m.materials.length
              · rw [readUint32_short _ (lt_of_le_of_lt (List.length_take_le _ _) (by omega))]
              · rw [take_append_long _ _ _ (by rw [encodeU32_length]; omega), encodeU32_length,
                  readUint32_append _ _ h3]
                dsimp only
                rw [readMeshes_trunc m.meshes _ h6 (by omega)]

--++ Section 10: the claims ++--

set_option maxRecDepth 100000

/-- C1: for every triangle soup and tolerance, collapse_vertices_ produces an
index buffer whose length equals the soup vertex-array length, a vertex
mapping whose length equals the returned unique-vertex count, and every index
buffer value is strictly below the unique-vertex count. -/
theorem c1_collapse_postconditions (soup : TriangleSoup) (tol : ℚ) :
    (collapseStateOf soup tol).indices.length = soup.vert.length ∧
    (vertexMapping soup tol).length = uniqueVertexCount soup tol ∧
    ∀ v ∈ (collapseStateOf soup tol).indices, v < uniqueVertexCount soup tol :=
  ⟨collapse_indices_length soup tol, (collapse_inv soup tol).1, (collapse_inv soup tol).2.1⟩

theorem c1_witness : 0 < uniqueVertexCount soupOne 1 :=
  (c1_collapse_postconditions soupOne 1).2.2 0 (by with_unfolding_all decide)

/-- C2: mergable_ holds exactly when every position coordinate of the two
vertices differs by at most the tolerance, every normal coordinate does
whenever the soup has normals, and both texcoord coordinates do; the tests
are independent per-attribute, per-axis absolute differences. -/
theorem c2_mergable_iff (soup : TriangleSoup) (tol : ℚ) (i j : Nat) :
    mergable_ soup i j (vertAt soup i) (vertAt soup j) tol = true ↔
      ((|(vertAt soup i).1 - (vertAt soup j).1| ≤ tol ∧
        |(vertAt soup i).2.1 - (vertAt soup j).2.1| ≤ tol ∧
        |(vertAt soup i).2.2 - (vertAt soup j).2.2| ≤ tol) ∧
       (soup.norm ≠ [] →
        (|(normAt soup i).1 - (normAt soup j).1| ≤ tol ∧
         |(normAt soup i).2.1 - (normAt soup j).2.1| ≤ tol ∧
         |(normAt soup i).2.2 - (normAt soup j).2.2| ≤ tol)) ∧
       (|(textAt soup i).1 - (textAt soup j).1| ≤ tol ∧
        |(textAt soup i).2 - (textAt soup j).2| ≤ tol)) := by
  by_cases hn : soup.norm = [] <;>
    simp [mergable_, hn, List.isEmpty_iff, and_assoc]

theorem c2_witness :
    mergable_ soupPair 0 1 (vertAt soupPair 0) (vertAt soupPair 1) 1 = true ↔
      ((|(vertAt soupPair 0).1 - (vertAt soupPair 1).1| ≤ 1 ∧
        |(vertAt soupPair 0).2.1 - (vertAt soupPair 1).2.1| ≤ 1 ∧
        |(vertAt soupPair 0).2.2 - (vertAt soupPair 1).2.2| ≤ 1) ∧
       (soupPair.norm ≠ [] →
        (|(normAt soupPair 0).1 - (normAt soupPair 1).1| ≤ 1 ∧
         |(normAt soupPair 0).2.1 - (normAt soupPair 1).2.1| ≤ 1 ∧
         |(normAt soupPair 0).2.2 - (normAt soupPair 1).2.2| ≤ 1)) ∧
       (|(textAt soupPair 0).1 - (textAt soupPair 1).1| ≤ 1 ∧
        |(textAt soupPair 0).2 - (textAt soupPair 1).2| ≤ 1)) :=
  c2_mergable_iff soupPair 1 0 1

/-- C3 (counterexample): the round trip is not byte-identical on texture
paths even with an empty directory: the loader keeps the serialized string
terminator, so the loaded path carries one extra NUL byte. -/
theorem c3_counterexample :
    load_baked_model_ [] (write_model_data_ bakeEx) ≠ .ok (bakedOfSpec [] bakeEx) := by
  decide

/-- C3 (amended): serializing with write_model_data_ and deserializing with
load_baked_model_ reproduces the model exactly, except that each texture path
comes back as the directory of the container file, then the original path
bytes, then one trailing NUL byte retained from the serialized terminator;
material tables (including 0xFFFFFFFF sentinels) and all per-mesh arrays are
identical. -/
theorem c3_roundtrip (m : BakeInput) (name : List Nat) (h : WFBakeInput m) :
    load_baked_model_ name (write_model_data_ m) = .ok (bakedOf name m) := by
  have := load_write_model m name [] h
  simpa using this

theorem c3_witness :
    load_baked_model_ [] (write_model_data_ bakeEx) = .ok (bakedOf [] bakeEx) :=
  c3_roundtrip bakeEx [] (by decide)

/-- C4: load_baked_model_ fails and produces no model on a wrong magic, a
wrong variant tag, or a header too short to hold both; and whenever any
declared field of an otherwise well-formed container cannot be read in full
(the byte stream is cut anywhere strictly inside the serialized container),
the load likewise fails with no partial model. -/
theorem c4_malformed_container :
    (∀ (name bs : List Nat),
        bs.take 16 ≠ kFileMagic ∨ (bs.drop 16).take 16 ≠ kFileVariant ∨ bs.length < 32 →
        isErr (load_baked_model_ name bs) = true) ∧
    (∀ (m : BakeInput) (name : List Nat) (k : Nat),
        WFBakeInput m → k < (write_model_data_ m).length →
        isErr (load_baked_model_ name ((write_model_data_ m).take k)) = true) := by
  constructor
  · intro name bs h
    unfold load_baked_model_
    dsimp only
    by_cases h16 : 16 ≤ bs.length
    · rw [show checkedRead 16 bs = .ok (bs.take 16, bs.drop 16) from by
        simp [checkedRead, h16]]
      dsimp only
      by_cases hm : bs.take 16 = kFileMagic
      · rw [if_pos hm]
        by_cases h32 : 16 ≤ bs.length - 16
        · rw [show checkedRead 16 (bs.drop 16) =
              .ok ((bs.drop 16).take 16, (bs.drop 16).drop 16) from by
            simp [checkedRead, List.length_drop, h32]]
          dsimp only
          have hv : (bs.drop 16).take 16 ≠ kFileVariant := by
            rcases h with h | h | h
            · exact absurd hm h
            · exact h
            · omega
          rw [if_neg hv]
          rfl
        · rw [show checkedRead 16 (bs.drop 16) =
              Except.error "checked_read_: short read" from by
            simp [checkedRead, List.length_drop, h32]]
          rfl
      · rw [if_neg hm]
        rfl
    · rw [show checkedRead 16 bs = Except.error "checked_read_: short read" from by
        simp [checkedRead, h16]]
      rfl
  · intro m name k h hk
    rw [load_write_trunc m name k h hk]
    rfl

theorem c4_witness :
    isErr (load_baked_model_ [] []) = true ∧
    isErr (load_baked_model_ [] ((write_model_data_ bakeEx).take 40)) = true :=
  ⟨c4_malformed_container.1 [] [] (Or.inl (by decide)),
   c4_malformed_container.2 bakeEx [] 40 (by decide) (by decide)⟩

/-- C5: each unique-vertex slot of the indexed mesh carries exactly the
position, texcoord and (when the soup has normals) normal of its
representative original vertex; no averaging happens during the merge. -/
theorem c5_attribute_coherence (soup : TriangleSoup) (tol : ℚ) (i : Nat)
    (hi : i < uniqueVertexCount soup tol) :
    (make_indexed_mesh soup tol).vert.getD i (0, 0, 0) =
      vertAt soup ((vertexMapping soup tol).getD i 0) ∧
    (make_indexed_mesh soup tol).text.getD i (0, 0) =
      textAt soup ((vertexMapping soup tol).getD i 0) ∧
    (soup.norm ≠ [] →
      (make_indexed_mesh soup tol).norm.getD i (0, 0, 0) =
        normAt soup ((vertexMapping soup tol).getD i 0)) := by
  have hlen : (vertexMapping soup tol).length = uniqueVertexCount soup tol :=
    (collapse_inv soup tol).1
  have hi' : i < (vertexMapping soup tol).length := by rw [hlen]; exact hi
  refine ⟨?_, ?_, ?_⟩
  · have hv : (make_indexed_mesh soup tol).vert = (vertexMapping soup tol).map (vertAt soup) := by
      simp [make_indexed_mesh, vertexMapping]
    rw [hv, List.getD_eq_getElem _ _ (by simpa using hi'), List.getElem_map,
      List.getD_eq_getElem _ _ hi']
  · have ht : (make_indexed_mesh soup tol).text = (vertexMapping soup tol).map (textAt soup) := by
      simp [make_indexed_mesh, vertexMapping]
    rw [ht, List.getD_eq_getElem _ _ (by simpa using hi'), List.getElem_map,
      List.getD_eq_getElem _ _ hi']
  · intro hn
    have hnm : (make_indexed_mesh soup tol).norm = (vertexMapping soup tol).map (normAt soup) := by
      simp [make_indexed_mesh, vertexMapping, List.isEmpty_iff, hn]
    rw [hnm, List.getD_eq_getElem _ _ (by simpa using hi'), List.getElem_map,
      List.getD_eq_getElem _ _ hi']

theorem c5_witness :
    (make_indexed_mesh soupOne 1).vert.getD 0 (0, 0, 0) =
      vertAt soupOne ((vertexMapping soupOne 1).getD 0 0) ∧
    (make_indexed_mesh soupOne 1).text.getD 0 (0, 0) =
      textAt soupOne ((vertexMapping soupOne 1).getD 0 0) ∧
    (soupOne.norm ≠ [] →
      (make_indexed_mesh soupOne 1).norm.getD 0 (0, 0, 0) =
        normAt soupOne ((vertexMapping soupOne 1).getD 0 0)) :=
  c5_attribute_coherence soupOne 1 0 (by with_unfolding_all decide)

/-- C6: collapse-map entries are write-once during a run of
collapse_vertices_: an entry assigned the slot v after processing the first k
vertices still holds v after processing any larger prefix; already-assigned
candidates are skipped by the scan, never re-merged. -/
theorem c6_collapse_map_monotone (soup : TriangleSoup) (tol : ℚ) (k kk j v : Nat)
    (hkk : k ≤ kk) (h : (collapseRun soup tol k).collapseMap j = some v) :
    (collapseRun soup tol kk).collapseMap j = some v := by
  unfold collapseRun at h ⊢
  dsimp only at h ⊢
  rw [show kk = k + (kk - k) from by omega, List.take_add, List.foldl_append]
  exact foldl_preserve _ (fun s => s.collapseMap j = some v) _
    (fun s x hs => processVertex_keeps_assigned _ _ _ _ s x j v hs) _ h

theorem c6_witness : (collapseRun soupPair 1 2).collapseMap 1 = some 0 :=
  c6_collapse_map_monotone soupPair 1 1 2 1 0 (by decide) (by with_unfolding_all decide)

/-- C7: the unit cube as a 36-corner triangle soup with 8 distinct positions
and per-position agreeing normals and texcoords, indexed at tolerance 1e-4,
yields exactly 8 unique vertices and 36 indices, all below 8. -/
theorem c7_unit_cube :
    uniqueVertexCount cubeSoup (1 / 10000) = 8 ∧
    (make_indexed_mesh cubeSoup (1 / 10000)).indices.length = 36 ∧
    ((make_indexed_mesh cubeSoup (1 / 10000)).indices.all fun v => v < 8) = true := by
  with_unfolding_all decide

/-- C8 (counterexample): the grid resolution is an integer and differs from
the exact quotient min(maxGridCells, longestSide / (2 tolerance)): on a soup
with padded longest side 21 at tolerance 1 the code picks 11 cells while the
exact spec formula yields 10.5. -/
theorem c8_counterexample : ((gridSubdiv soupC8 1 : ℚ)) ≠ specGridResolutionQ soupC8 1 := by
  with_unfolding_all decide

/-- C8 (amended): the subdivision count equals
min(maxGridCells, round(paddedLongestSide / (2 tolerance))), rounding to
nearest by adding one half and truncating, with maxGridCells = 1024*1024 and
the bounding box enlarged by the 10-tolerance margin; the rounded count is
within one half of the exact quotient of the spec formula. -/
theorem c8_grid_resolution (soup : TriangleSoup) (tol : ℚ)
    (hq : 0 ≤ maxSideOf soup tol / (2 * tol)) :
    gridSubdiv soup tol =
      min kSparseGridMaxSize (Int.toNat ⌊maxSideOf soup tol / (2 * tol) + 1 / 2⌋) ∧
    |((Int.toNat ⌊maxSideOf soup tol / (2 * tol) + 1 / 2⌋ : ℚ)) -
        maxSideOf soup tol / (2 * tol)| ≤ 1 / 2 := by
  constructor
  · rfl
  · set q := maxSideOf soup tol / (2 * tol) with hqdef
    have h0 : (0 : ℚ) ≤ q + 1 / 2 := by linarith
    have hfl : (0 : ℤ) ≤ ⌊q + 1 / 2⌋ := Int.floor_nonneg.2 h0
    have hcast : ((⌊q + 1 / 2⌋.toNat : ℚ)) = ((⌊q + 1 / 2⌋ : ℤ) : ℚ) := by
      exact_mod_cast congrArg (fun z : ℤ => (z : ℚ)) (Int.toNat_of_nonneg hfl)
    rw [hcast, abs_le]
    constructor
    · have h1 : q + 1 / 2 - 1 < (⌊q + 1 / 2⌋ : ℚ) := Int.sub_one_lt_floor (q + 1 / 2)
      linarith
    · have h2 : ((⌊q + 1 / 2⌋ : ℤ) : ℚ) ≤ q + 1 / 2 := Int.floor_le (q + 1 / 2)
      linarith

theorem c8_witness :
    gridSubdiv soupC8 1 =
      min kSparseGridMaxSize (Int.toNat ⌊maxSideOf soupC8 1 / (2 * 1) + 1 / 2⌋) ∧
    |((Int.toNat ⌊maxSideOf soupC8 1 / (2 * 1) + 1 / 2⌋ : ℚ)) -
        maxSideOf soupC8 1 / (2 * 1)| ≤ 1 / 2 :=
  c8_grid_resolution soupC8 1 (by with_unfolding_all decide)

/-- C9: a length-prefixed string read fails exactly when the declared length
reaches kMaxString = 32768; any shorter declared length is read in full when
the bytes are available. -/
theorem c9_string_length_limit (len : Nat) (rest : List Nat) (hlen : len < 2 ^ 32) :
    (kMaxString ≤ len → isErr (readString (encodeU32 len ++ rest)) = true) ∧
    (len < kMaxString → len ≤ rest.length →
      readString (encodeU32 len ++ rest) = .ok (rest.take len, rest.drop len)) := by
  constructor
  · intro hbig
    unfold readString
    rw [readUint32_append _ _ hlen]
    dsimp only
    rw [if_pos hbig]
    rfl
  · intro hsmall havail
    unfold readString
    rw [readUint32_append _ _ hlen]
    dsimp only
    rw [if_neg (by omega : ¬ kMaxString ≤ len)]
    simp [checkedRead, havail]

theorem c9_witness :
    isErr (readString (encodeU32 40000 ++ [])) = true ∧
    readString (encodeU32 2 ++ [5, 6]) = .ok (([5, 6] : List Nat).take 2, ([5, 6] : List Nat).drop 2) :=
  ⟨(c9_string_length_limit 40000 [] (by decide)).1 (by decide),
   (c9_string_length_limit 2 [5, 6] (by decide)).2 (by decide) (by decide)⟩

/-- C10: a well-formed container followed by one or more trailing bytes still
loads successfully, producing the model decoded from the well-formed prefix;
the trailing bytes only trigger a diagnostic note in the C++ code. -/
theorem c10_trailing_bytes (m : BakeInput) (name extra : List Nat) (h : WFBakeInput m)
    (_hx : extra ≠ []) :
    load_baked_model_ name (write_model_data_ m ++ extra) = .ok (bakedOf name m) :=
  load_write_model m name extra h

theorem c10_witness :
    load_baked_model_ [] (write_model_data_ bakeEx ++ [7]) = .ok (bakedOf [] bakeEx) :=
  c10_trailing_bytes bakeEx [] [7] (by decide) (by decide)
